import Mathlib

/-!
Verification of the cgroup-assignment daemon (assign-cgroups.py).

The development shallowly embeds the program logic: Python strings become
`List Char`, bytes become `Nat` (kept below 256 where it matters), fallible
Python code becomes `Except PyExc`, and the external collaborators (the
display server, the process table, the systemd D-Bus endpoint) become
explicit function-valued parameters of the embedded operations.
-/

/-- Characters accepted unescaped by the unit-name escaper: the complement of
the regular expression class used in the source, which under ASCII matching
is word characters plus colon, dot and backslash. -/
def allowedChar (c : Char) : Bool :=
  ('A' ≤ c && c ≤ 'Z') || ('a' ≤ c && c ≤ 'z') || ('0' ≤ c && c ≤ '9') ||
  c == '_' || c == ':' || c == '.' || c == '\\'

/-- Lowercase hexadecimal digit, as produced by a two-digit lowercase hex
format of a byte. -/
def hexDigitChar (n : Nat) : Char :=
  if n < 10 then Char.ofNat (48 + n) else Char.ofNat (87 + n)

/-- Text form of one escaped byte: a backslash, the letter x and two lowercase
hex digits. -/
def hexByteChars (b : Nat) : List Char :=
  ['\\', 'x', hexDigitChar (b / 16), hexDigitChar (b % 16)]

/-- UTF-8 encoding of a code point, as performed by encoding a one-character
string in the source before hex-escaping each byte. -/
def utf8Bytes (n : Nat) : List Nat :=
  if n < 128 then [n]
  else if n < 2048 then [192 + n / 64, 128 + n % 64]
  else if n < 65536 then [224 + n / 4096, 128 + n / 64 % 64, 128 + n % 64]
  else [240 + n / 262144, 128 + n / 4096 % 64, 128 + n / 64 % 64, 128 + n % 64]

/-- Replacement performed for a single character: characters in the allowed
class are kept, every other character is replaced by the concatenation of the
hex escapes of its UTF-8 bytes. -/
def escChar (c : Char) : List Char :=
  if allowedChar c then [c] else (utf8Bytes c.toNat).flatMap hexByteChars

/-- Embedding of escape_app_id: regex substitution applied independently to
every character of the identifier. -/
def escape_app_id (s : List Char) : List Char :=
  s.flatMap escChar

/-- Slice name format: app-{app_id}.slice. -/
def sd_slice_format (app_id : List Char) : List Char :=
  "app-".data ++ app_id ++ ".slice".data

/-- Unit name format: app-{app_id}-{unique}.scope. -/
def sd_unit_format (app_id : List Char) (unique : List Char) : List Char :=
  "app-".data ++ app_id ++ "-".data ++ unique ++ ".scope".data

/-- Known launcher applications, verbatim from the source. -/
def LAUNCHER_APPS : List (List Char) :=
  ["nwgbar".data, "nwgdmenu".data, "nwggrid".data, "onagre".data]

/-- Pre-escaped launcher slice names, computed from LAUNCHER_APPS exactly as
the source does at module load. -/
def LAUNCHER_APP_CGROUPS : List (List Char) :=
  LAUNCHER_APPS.map (fun app => sd_slice_format (escape_app_id app))

/-- ASCII whitespace stripped by str.strip on the proc file content. -/
def isPySpace (c : Char) : Bool :=
  c == ' ' || c == '\t' || c == '\n' || c == '\r' ||
  c == Char.ofNat 11 || c == Char.ofNat 12

/-- Leading and trailing whitespace removal, the strip call of get_cgroup. -/
def pyStrip (l : List Char) : List Char :=
  ((l.dropWhile isPySpace).reverse.dropWhile isPySpace).reverse

/-- Splitting a string at every colon, the split call of get_cgroup; always
yields at least one (possibly empty) field. -/
def splitOnColon : List Char → List (List Char)
  | [] => [[]]
  | c :: rest =>
    if c = ':' then [] :: splitOnColon rest
    else
      match splitOnColon rest with
      | [] => [[c]]
      | r :: rs => (c :: r) :: rs

/-- Embedding of get_cgroup. The kernel file read is modelled by the argument:
none stands for an OSError raised by open or read (process gone, permission
denied, unsupported kernel), which the source catches and turns into None;
some gives the file content. On success the source strips the content, splits
it on colons and keeps the final field. -/
def get_cgroup (file : Option (List Char)) : Option (List Char) :=
  match file with
  | none => none
  | some s => some ((splitOnColon (pyStrip s)).getLastD [])

/-- Python substring test, the in operator on strings used by the placement
policy. -/
def isSubstrOf (needle : List Char) : List Char → Bool
  | [] => needle.isPrefixOf []
  | c :: t => needle.isPrefixOf (c :: t) || isSubstrOf needle t

/-- Embedding of CGroupHandler.cgroup_change_needed. The compositor cgroup
field of the handler is the first argument. -/
def cgroup_change_needed (comp : List Char) (cgroup : Option (List Char)) : Bool :=
  match cgroup with
  | none => false
  | some cg =>
    (LAUNCHER_APP_CGROUPS.any fun launcher => isSubstrOf launcher cg) || cg == comp

/-- Python exceptions relevant to the program, one constructor per class that
the source distinguishes: DBusError from the bus library, RuntimeError raised
by the X11 getters, NoSuchProcess from the process library, OSError from file
reads, AssertionError from assert, and a catch-all for anything else. -/
inductive PyExc where
  | dbusError (msg : List Char)
  | runtimeError (msg : List Char)
  | noSuchProcess (pid : Int)
  | osError (msg : List Char)
  | assertionError
  | other (msg : List Char)
deriving DecidableEq

/-- Exception-class test performed by the retry decorator: only DBusError is
retried. -/
def isDBusError : PyExc → Bool
  | .dbusError _ => true
  | _ => false

/-- Outcome test used by the retry decorator on one attempt: an attempt is
retried exactly when it raised a DBusError. -/
def retryableOutcome : Except PyExc Unit → Bool
  | .error e => isDBusError e
  | .ok _ => false

/-- Window container of an event, the fields of the i3ipc Con the program
reads: an optional native PID, an optional X11 window handle, an optional
application identifier and an optional window class. -/
structure IpcCon where
  pid : Option Int
  window : Option Nat
  app_id : Option (List Char)
  window_class : Option (List Char)

/-- X11 branch of get_pid: when a window handle is present and the lazily
created getter is available, call it (its failures propagate); otherwise
resolve to an absent PID. -/
def x11_lookup (getter : Option (Nat → Except PyExc Int)) (window : Option Nat) :
    Except PyExc (Option Int) :=
  match window, getter with
  | some w, some g => (g w).map some
  | _, _ => .ok none

/-- Embedding of CGroupHandler.get_pid. The first argument models the
get_x11_window_pid property: none when the getter could not be initialized,
otherwise the per-window display query, which may raise. A native PID that is
a positive integer is used directly; otherwise the X11 branch runs. -/
def get_pid (getter : Option (Nat → Except PyExc Int)) (con : IpcCon) :
    Except PyExc (Option Int) :=
  match con.pid with
  | some p => if 0 < p then .ok (some p) else x11_lookup getter con.window
  | none => x11_lookup getter con.window

/-- Resolved process, the parts of a psutil Process the program uses. The
children field gives, for each retry attempt, the snapshot taken at that
attempt: each descendant paired with the content of its proc cgroup file at
that moment (none when the read would fail). The name call may itself raise
once the process is gone. -/
structure Proc where
  pid : Int
  name : Except PyExc (List Char)
  children : Nat → List (Int × Option (List Char))

/-- Arguments of one StartTransientUnit call as issued by assign_scope. -/
structure RpcCall where
  unit : List Char
  mode : List Char
  pids : List Int
  slice : List Char
deriving DecidableEq

/-- Call built by the body of assign_scope on attempt i: escape the
identifier, format the slice and unit names, and list the root PID followed
by the descendants of the attempt-i snapshot whose re-read cgroup still
satisfies the placement policy. -/
def assign_call (comp : List Char) (app_id : List Char) (proc : Proc) (i : Nat) :
    RpcCall :=
  let escaped := escape_app_id app_id
  { unit := sd_unit_format escaped (toString proc.pid).data
    mode := "fail".data
    pids := proc.pid ::
      ((proc.children i).filter
        (fun child => cgroup_change_needed comp (get_cgroup child.2))).map (·.1)
    slice := sd_slice_format escaped }

/-- One attempt of assign_scope: issue the StartTransientUnit call against the
bus stub for this attempt, returning its outcome together with the call that
was made. -/
def assign_attempt (comp : List Char) (rpc : Nat → RpcCall → Except PyExc Unit)
    (app_id : List Char) (proc : Proc) (i : Nat) :
    Except PyExc Unit × RpcCall :=
  (rpc i (assign_call comp app_id proc i), assign_call comp app_id proc i)

/-- Semantics of the tenacity retry decorator on the method: run the body, and
while the outcome is a DBusError and attempts remain, run it again from
scratch; with reraise set, the final failure is raised unchanged; any other
exception is raised immediately. The trace of calls made is returned alongside
the result. -/
def retryRunT (body : Nat → Except PyExc Unit × RpcCall) (i : Nat) :
    Nat → Except PyExc Unit × List RpcCall
  | 0 => ((body i).1, [(body i).2])
  | 1 => ((body i).1, [(body i).2])
  | n + 2 =>
    match (body i).1 with
    | .ok a => (.ok a, [(body i).2])
    | .error e =>
      if isDBusError e then
        ((retryRunT body (i + 1) (n + 1)).1,
          (body i).2 :: (retryRunT body (i + 1) (n + 1)).2)
      else (.error e, [(body i).2])

/-- Embedding of CGroupHandler.assign_scope with its decorator: up to three
attempts of the body, each recomputing the names and re-snapshotting the
descendants. -/
def assign_scope (comp : List Char) (rpc : Nat → RpcCall → Except PyExc Unit)
    (app_id : List Char) (proc : Proc) : Except PyExc Unit × List RpcCall :=
  retryRunT (assign_attempt comp rpc app_id proc) 0 3

/-- Environment of one window event: the container, the lazily initialized
display getter, the Process constructor (raises when the PID does not exist),
the proc cgroup file of the resolved root process, the compositor cgroup and
the bus stub used by assign_scope. -/
structure EventEnv where
  con : IpcCon
  getter : Option (Nat → Except PyExc Int)
  process : Int → Except PyExc Proc
  cgroupFile : Int → Option (List Char)
  comp : List Char
  rpc : Nat → RpcCall → Except PyExc Unit

/-- Observable outcome of one handled window event, standing in for the log
lines the source emits on each path. -/
inductive Outcome where
  | skippedNoPid
  | notNeeded (cgroup : Option (List Char))
  | assigned (calls : List RpcCall)
  | errorLogged (e : PyExc)
deriving DecidableEq

/-- Truthiness fallback computing the application identifier from the
container: the window class is used when the identifier is absent or empty. -/
def event_app_id (con : IpcCon) : Option (List Char) :=
  match con.app_id with
  | some a => if a = [] then con.window_class else some a
  | none => con.window_class

/-- Try-block body of the window:new handler: resolve the PID, build the
process, read its cgroup, fall back to the process name for the identifier,
and assign a scope when the placement policy says so. -/
def on_new_window_body (env : EventEnv) : Except PyExc Outcome :=
  match get_pid env.getter env.con with
  | .error e => .error e
  | .ok none => .ok .skippedNoPid
  | .ok (some pid) =>
    match env.process pid with
    | .error e => .error e
    | .ok proc =>
      let cgroup := get_cgroup (env.cgroupFile proc.pid)
      match (match event_app_id env.con with
             | none => proc.name
             | some a => .ok a) with
      | .error e => .error e
      | .ok app_id =>
        if cgroup_change_needed env.comp cgroup then
          match assign_scope env.comp env.rpc app_id proc with
          | (.ok _, calls) => .ok (.assigned calls)
          | (.error e, _) => .error e
        else .ok (.notNeeded cgroup)

/-- Embedding of CGroupHandler._on_new_window: the body runs under a broad
except clause that logs any exception and returns normally. -/
def on_new_window (env : EventEnv) : Except PyExc Outcome :=
  match on_new_window_body env with
  | .ok o => .ok o
  | .error e => .ok (.errorLogged e)

/-- Environment of initialization: the introspection of the systemd bus name
(may fail), the peer PID obtained from the IPC socket credentials (may fail),
and the proc cgroup file of that compositor process. -/
structure ConnectEnv where
  introspect : Except PyExc Unit
  socketPeerPid : Except PyExc Int
  compCgroupFile : Option (List Char)

/-- Handler state established by a successful initialization: the compositor
identity and whether the window:new subscription was registered. -/
structure HandlerState where
  compositor_pid : Int
  compositor_cgroup : List Char
  subscribed : Bool
deriving DecidableEq

/-- Embedding of CGroupHandler.connect: introspect the bus, resolve the
compositor PID from socket credentials, read its cgroup and assert it is
present, then subscribe to window:new events. -/
def connect (env : ConnectEnv) : Except PyExc HandlerState :=
  match env.introspect with
  | .error e => .error e
  | .ok _ =>
    match env.socketPeerPid with
    | .error e => .error e
    | .ok pid =>
      match get_cgroup env.compCgroupFile with
      | none => .error .assertionError
      | some cg =>
        .ok { compositor_pid := pid, compositor_cgroup := cg, subscribed := true }

lemma isSubstrOf_iff (needle hay : List Char) :
    isSubstrOf needle hay = true ↔ needle <:+: hay := by
  induction hay with
  | nil =>
    simp [isSubstrOf, List.isPrefixOf_iff_prefix, List.infix_nil, List.prefix_nil]
  | cons c t ih =>
    simp [isSubstrOf, List.isPrefixOf_iff_prefix, ih, List.infix_cons_iff]

/-- C1: cgroup_change_needed is false on an absent cgroup, and on a present
cgroup it is true exactly when the cgroup equals the compositor cgroup or
contains one of the pre-escaped launcher slice names as a substring. -/
theorem c1_cgroup_change_needed_spec (comp : List Char) :
    cgroup_change_needed comp none = false ∧
    ∀ cg : List Char,
      (cgroup_change_needed comp (some cg) = true ↔
        cg = comp ∨ ∃ l ∈ LAUNCHER_APP_CGROUPS, l <:+: cg) := by
  refine ⟨rfl, fun cg => ?_⟩
  simp only [cgroup_change_needed, Bool.or_eq_true, List.any_eq_true,
    isSubstrOf_iff, beq_iff_eq]
  exact or_comm

/-- C6: get_pid uses a positive native PID directly; otherwise it queries the
display getter when a window handle and a getter are available; and when the
handle is absent or no getter could be initialized it resolves to absent. -/
theorem c6_get_pid_strategy :
    (∀ (getter : Option (Nat → Except PyExc Int)) (con : IpcCon) (p : Int),
      con.pid = some p → 0 < p → get_pid getter con = .ok (some p)) ∧
    (∀ (getter : Option (Nat → Except PyExc Int)) (con : IpcCon) (w : Nat)
        (g : Nat → Except PyExc Int),
      (con.pid = none ∨ ∃ p, con.pid = some p ∧ p ≤ 0) →
      con.window = some w → getter = some g →
      get_pid getter con = (g w).map some) ∧
    (∀ (getter : Option (Nat → Except PyExc Int)) (con : IpcCon),
      (con.pid = none ∨ ∃ p, con.pid = some p ∧ p ≤ 0) →
      (con.window = none ∨ getter = none) →
      get_pid getter con = .ok none) := by
  refine ⟨?_, ?_, ?_⟩
  · intro getter con p hp hpos
    simp [get_pid, hp, hpos]
  · intro getter con w g hpid hw hg
    rcases hpid with hp | ⟨p, hp, hple⟩
    · simp [get_pid, hp, hw, hg, x11_lookup]
    · simp [get_pid, hp, hw, hg, x11_lookup, not_lt.mpr hple]
  · intro getter con hpid hwg
    have hx : x11_lookup getter con.window = .ok none := by
      rcases hwg with hw | hg
      · simp [x11_lookup, hw]
      · subst hg
        cases con.window <;> simp [x11_lookup]
    rcases hpid with hp | ⟨p, hp, hple⟩
    · simp [get_pid, hp, hx]
    · simp [get_pid, hp, not_lt.mpr hple, hx]

/-- Closed instance of the C6 strategy order on concrete events. -/
theorem c6_witness :
    get_pid none ⟨some 4242, none, none, none⟩ = .ok (some 4242) ∧
    get_pid (some fun _ => Except.ok 5555) ⟨none, some 900, none, none⟩ =
      .ok (some 5555) ∧
    get_pid none ⟨none, none, none, none⟩ = .ok none := by
  refine ⟨c6_get_pid_strategy.1 none ⟨some 4242, none, none, none⟩ 4242 rfl (by decide), ?_, c6_get_pid_strategy.2.2 none ⟨none, none, none, none⟩ (Or.inl rfl) (Or.inr rfl)⟩
  have h := c6_get_pid_strategy.2.1 (some fun _ => Except.ok 5555)
    ⟨none, some 900, none, none⟩ 900 (fun _ => Except.ok 5555) (Or.inl rfl) rfl rfl
  simpa using h

/-- C5 counterexample: a failure of the display call is not converted to an
absent result by get_pid; it escapes the resolver as an exception. -/
theorem c5_counterexample :
    get_pid (some fun _ => Except.error (PyExc.runtimeError "no pid".data))
      ⟨none, some 900, none, none⟩ =
      Except.error (PyExc.runtimeError "no pid".data) := rfl

/-- C5 amended: a display-call failure propagates out of get_pid and is caught
one level up, at the window event handler, which logs it and returns normally;
the exception therefore never escapes the event handler. -/
theorem c5_amended_display_failure_logged (env : EventEnv) (w : Nat)
    (g : Nat → Except PyExc Int) (e : PyExc) :
    (env.con.pid = none ∨ ∃ p, env.con.pid = some p ∧ p ≤ 0) →
    env.con.window = some w → env.getter = some g → g w = .error e →
    on_new_window env = .ok (.errorLogged e) := by
  intro hpid hw hg hgw
  have hres : get_pid env.getter env.con = .error e := by
    rcases hpid with hp | ⟨p, hp, hple⟩
    · simp [get_pid, hp, hw, hg, x11_lookup, hgw, Except.map]
    · simp [get_pid, hp, hw, hg, x11_lookup, hgw, not_lt.mpr hple, Except.map]
  simp [on_new_window, on_new_window_body, hres]

/-- Closed instance of the amended C5 claim on a concrete event. -/
theorem c5_amended_witness :
    on_new_window
      { con := ⟨none, some 900, none, none⟩
        getter := some fun _ => Except.error (PyExc.runtimeError "no pid".data)
        process := fun p => Except.error (PyExc.noSuchProcess p)
        cgroupFile := fun _ => none
        comp := []
        rpc := fun _ _ => Except.ok () } =
      .ok (.errorLogged (PyExc.runtimeError "no pid".data)) :=
  c5_amended_display_failure_logged _ 900
    (fun _ => Except.error (PyExc.runtimeError "no pid".data)) _
    (Or.inl rfl) rfl rfl rfl

/-- C7: the window event handler never lets an exception escape: whatever the
environment does, the handler returns normally, logging any error. -/
theorem c7_on_new_window_never_raises (env : EventEnv) :
    ∃ o, on_new_window env = .ok o := by
  unfold on_new_window
  cases on_new_window_body env <;> exact ⟨_, rfl⟩

/-- C9: connect cannot succeed while the compositor cgroup is unreadable, and
every successful connect has read a present compositor cgroup and only then
subscribed to window events. -/
theorem c9_connect_requires_compositor_cgroup :
    (∀ env : ConnectEnv, get_cgroup env.compCgroupFile = none →
      ∀ s, connect env ≠ .ok s) ∧
    (∀ (env : ConnectEnv) (s : HandlerState), connect env = .ok s →
      get_cgroup env.compCgroupFile = some s.compositor_cgroup ∧
      s.subscribed = true) := by
  constructor
  · intro env hnone s hok
    cases hi : env.introspect <;> cases hp : env.socketPeerPid <;>
      simp [connect, hi, hp, hnone] at hok
  · intro env s hok
    cases hi : env.introspect <;> cases hp : env.socketPeerPid <;>
      cases hcg : get_cgroup env.compCgroupFile <;>
      simp [connect, hi, hp, hcg] at hok
    exact ⟨by rw [← hok], by rw [← hok]⟩

/-- Closed instance of C9 at two concrete initialization environments. -/
theorem c9_witness :
    connect ⟨Except.ok (), Except.ok 100, none⟩ ≠
      .ok ⟨100, [], true⟩ ∧
    (get_cgroup (some "0::/user.slice/comp.scope".data) =
        some (⟨100, "/user.slice/comp.scope".data, true⟩ : HandlerState).compositor_cgroup ∧
      (⟨100, "/user.slice/comp.scope".data, true⟩ : HandlerState).subscribed = true) :=
  ⟨c9_connect_requires_compositor_cgroup.1 ⟨Except.ok (), Except.ok 100, none⟩ rfl _,
   c9_connect_requires_compositor_cgroup.2 ⟨Except.ok (), Except.ok 100,
     some "0::/user.slice/comp.scope".data⟩ ⟨100, "/user.slice/comp.scope".data, true⟩
     rfl⟩

lemma assign_attempt_fst (comp : List Char) (rpc : Nat → RpcCall → Except PyExc Unit)
    (app_id : List Char) (proc : Proc) (i : Nat) :
    (assign_attempt comp rpc app_id proc i).1 = rpc i (assign_call comp app_id proc i) :=
  rfl

lemma assign_attempt_snd (comp : List Char) (rpc : Nat → RpcCall → Except PyExc Unit)
    (app_id : List Char) (proc : Proc) (i : Nat) :
    (assign_attempt comp rpc app_id proc i).2 = assign_call comp app_id proc i :=
  rfl

lemma retryRunT_step (body : Nat → Except PyExc Unit × RpcCall) (i n : Nat) :
    retryRunT body i (n + 2) =
      match (body i).1 with
      | .ok a => (.ok a, [(body i).2])
      | .error e =>
        if isDBusError e then
          ((retryRunT body (i + 1) (n + 1)).1,
            (body i).2 :: (retryRunT body (i + 1) (n + 1)).2)
        else (.error e, [(body i).2]) :=
  rfl

lemma retryRunT_one (body : Nat → Except PyExc Unit × RpcCall) (i : Nat) :
    retryRunT body i 1 = ((body i).1, [(body i).2]) :=
  rfl

lemma retryRunT_not_retryable (body : Nat → Except PyExc Unit × RpcCall) (i n : Nat)
    (h : retryableOutcome (body i).1 = false) :
    retryRunT body i (n + 2) = ((body i).1, [(body i).2]) := by
  rw [retryRunT_step]
  cases hb : (body i).1 with
  | ok a => rfl
  | error e =>
    rw [hb] at h
    simp only [retryableOutcome] at h
    simp [h]

lemma retryRunT_retryable (body : Nat → Except PyExc Unit × RpcCall) (i n : Nat)
    (h : retryableOutcome (body i).1 = true) :
    retryRunT body i (n + 2) =
      ((retryRunT body (i + 1) (n + 1)).1,
        (body i).2 :: (retryRunT body (i + 1) (n + 1)).2) := by
  rw [retryRunT_step]
  cases hb : (body i).1 with
  | ok a => rw [hb] at h; simp only [retryableOutcome] at h; cases h
  | error e =>
    rw [hb] at h
    simp only [retryableOutcome] at h
    simp [h]

/-- C2: the retry wrapper of assign_scope makes at most three attempts, each
rebuilding the call from a fresh descendant snapshot; a first outcome that is
not a DBusError (success or any other exception) is final after one attempt,
a retryable first outcome leads to a second fresh attempt, and after two
retryable outcomes the third attempt is final and its error, if any, is
re-raised unchanged. -/
theorem c2_assign_scope_retry (comp : List Char)
    (rpc : Nat → RpcCall → Except PyExc Unit) (app_id : List Char) (proc : Proc) :
    (retryableOutcome (rpc 0 (assign_call comp app_id proc 0)) = false →
      assign_scope comp rpc app_id proc =
        (rpc 0 (assign_call comp app_id proc 0),
          [assign_call comp app_id proc 0])) ∧
    (retryableOutcome (rpc 0 (assign_call comp app_id proc 0)) = true →
      retryableOutcome (rpc 1 (assign_call comp app_id proc 1)) = false →
      assign_scope comp rpc app_id proc =
        (rpc 1 (assign_call comp app_id proc 1),
          [assign_call comp app_id proc 0, assign_call comp app_id proc 1])) ∧
    (retryableOutcome (rpc 0 (assign_call comp app_id proc 0)) = true →
      retryableOutcome (rpc 1 (assign_call comp app_id proc 1)) = true →
      assign_scope comp rpc app_id proc =
        (rpc 2 (assign_call comp app_id proc 2),
          [assign_call comp app_id proc 0, assign_call comp app_id proc 1,
            assign_call comp app_id proc 2])) := by
  refine ⟨?_, ?_, ?_⟩
  · intro h0
    unfold assign_scope
    rw [retryRunT_not_retryable _ _ _ (by rwa [assign_attempt_fst])]
    rfl
  · intro h0 h1
    unfold assign_scope
    rw [retryRunT_retryable _ _ _ (by rwa [assign_attempt_fst]),
      retryRunT_not_retryable _ _ _ (by rwa [assign_attempt_fst])]
    rfl
  · intro h0 h1
    unfold assign_scope
    rw [retryRunT_retryable _ _ _ (by rwa [assign_attempt_fst]),
      retryRunT_retryable _ _ _ (by rwa [assign_attempt_fst]),
      retryRunT_one]
    rfl

/-- Closed instance of C2: a bus stub that always raises DBusError makes
assign_scope fail after exactly three attempts, with three distinct snapshot
rebuilds observed in the call trace. -/
theorem c2_witness :
    assign_scope [] (fun _ _ => Except.error (PyExc.dbusError []))
        "x".data ⟨4242, Except.ok "x".data, fun i => [(Int.ofNat i, none)]⟩ =
      (Except.error (PyExc.dbusError []),
        [assign_call [] "x".data ⟨4242, Except.ok "x".data, fun i => [(Int.ofNat i, none)]⟩ 0,
         assign_call [] "x".data ⟨4242, Except.ok "x".data, fun i => [(Int.ofNat i, none)]⟩ 1,
         assign_call [] "x".data ⟨4242, Except.ok "x".data, fun i => [(Int.ofNat i, none)]⟩ 2]) :=
  (c2_assign_scope_retry [] (fun _ _ => Except.error (PyExc.dbusError []))
    "x".data ⟨4242, Except.ok "x".data, fun i => [(Int.ofNat i, none)]⟩).2.2 rfl rfl

lemma retryRunT_trace_mem (body : Nat → Except PyExc Unit × RpcCall) :
    ∀ (n i : Nat) (c : RpcCall), c ∈ (retryRunT body i n).2 → ∃ j, c = (body j).2 := by
  intro n
  induction n using Nat.strong_induction_on with
  | _ n ih =>
    intro i c hc
    match n with
    | 0 => exact ⟨i, by simpa [retryRunT] using hc⟩
    | 1 => exact ⟨i, by simpa [retryRunT] using hc⟩
    | m + 2 =>
      rw [retryRunT_step] at hc
      cases hb : (body i).1 with
      | ok a =>
        rw [hb] at hc
        exact ⟨i, by simpa using hc⟩
      | error e =>
        rw [hb] at hc
        by_cases hd : isDBusError e = true
        · simp only [hd, if_true] at hc
          rcases List.mem_cons.mp hc with h | h
          · exact ⟨i, h⟩
          · exact ih (m + 1) (by omega) (i + 1) c h
        · simp only [hd, if_false] at hc
          exact ⟨i, by simpa using hc⟩

/-- C3: when the bus accepts the first attempt, assign_scope issues exactly
one StartTransientUnit call, whose unit name is app- plus the escaped
identifier, a dash, the PID and .scope, whose collision mode is the literal
fail, whose PID list is the root followed by the policy-filtered descendants,
and whose slice is app- plus the escaped identifier and .slice. -/
theorem c3_assign_scope_naming (comp : List Char)
    (rpc : Nat → RpcCall → Except PyExc Unit) (app_id : List Char) (proc : Proc) :
    (rpc 0 (assign_call comp app_id proc 0) = .ok () →
      ∃ c, assign_scope comp rpc app_id proc = (.ok (), [c]) ∧
        c.unit = "app-".data ++ escape_app_id app_id ++ "-".data ++
          (toString proc.pid).data ++ ".scope".data ∧
        c.mode = "fail".data ∧
        c.pids = proc.pid ::
          ((proc.children 0).filter
            (fun child => cgroup_change_needed comp (get_cgroup child.2))).map (·.1) ∧
        c.slice = "app-".data ++ escape_app_id app_id ++ ".slice".data) ∧
    (∀ c ∈ (assign_scope comp rpc app_id proc).2,
      c.unit = "app-".data ++ escape_app_id app_id ++ "-".data ++
        (toString proc.pid).data ++ ".scope".data ∧
      c.mode = "fail".data ∧
      c.slice = "app-".data ++ escape_app_id app_id ++ ".slice".data) := by
  constructor
  · intro h0
    refine ⟨assign_call comp app_id proc 0, ?_, rfl, rfl, rfl, rfl⟩
    unfold assign_scope
    rw [retryRunT_not_retryable _ _ _ (by rw [assign_attempt_fst, h0]; rfl),
      assign_attempt_fst, assign_attempt_snd, h0]
  · intro c hc
    obtain ⟨j, hj⟩ := retryRunT_trace_mem _ 3 0 c hc
    rw [hj, assign_attempt_snd]
    exact ⟨rfl, rfl, rfl⟩

/-- Closed instance of C3 on a concrete application and process. -/
theorem c3_witness :
    ∃ c, assign_scope "/c.scope".data (fun _ _ => Except.ok ()) "a-b".data
        ⟨4242, Except.ok "a-b".data, fun _ => [(10, some "0::/c.scope".data), (11, none)]⟩ =
        (.ok (), [c]) ∧
      c.unit = "app-".data ++ escape_app_id "a-b".data ++ "-".data ++
        (toString (4242 : Int)).data ++ ".scope".data ∧
      c.mode = "fail".data ∧
      c.pids = (4242 : Int) ::
        (([((10 : Int), some "0::/c.scope".data), (11, none)]).filter
          (fun child => cgroup_change_needed "/c.scope".data (get_cgroup child.2))).map (·.1) ∧
      c.slice = "app-".data ++ escape_app_id "a-b".data ++ ".slice".data :=
  (c3_assign_scope_naming "/c.scope".data (fun _ _ => Except.ok ()) "a-b".data
    ⟨4242, Except.ok "a-b".data, fun _ => [(10, some "0::/c.scope".data), (11, none)]⟩).1 rfl

/-- C10: every StartTransientUnit call that assign_scope issues, on any
attempt, lists the root PID first, unconditionally; the placement-policy
recheck filters only the descendants of that attempt's snapshot. -/
theorem c10_assign_scope_root_pid_first (comp : List Char)
    (rpc : Nat → RpcCall → Except PyExc Unit) (app_id : List Char) (proc : Proc)
    (c : RpcCall) (hc : c ∈ (assign_scope comp rpc app_id proc).2) :
    ∃ i, c.pids = proc.pid ::
      ((proc.children i).filter
        (fun child => cgroup_change_needed comp (get_cgroup child.2))).map (·.1) := by
  obtain ⟨j, hj⟩ := retryRunT_trace_mem _ 3 0 c hc
  exact ⟨j, by rw [hj, assign_attempt_snd]; rfl⟩

/-- Closed instance of C10: a root process whose own cgroup fails the policy
still appears first in the PID list of the call the failed attempts made. -/
theorem c10_witness :
    ∃ i, (assign_call [] "x".data
        ⟨4242, Except.ok "x".data, fun _ => [(10, none)]⟩ 0).pids =
      (4242 : Int) ::
        (((⟨4242, Except.ok "x".data, fun _ => [((10 : Int), none)]⟩ : Proc).children i).filter
          (fun child => cgroup_change_needed [] (get_cgroup child.2))).map (·.1) :=
  c10_assign_scope_root_pid_first [] (fun _ _ => Except.error (PyExc.dbusError []))
    "x".data ⟨4242, Except.ok "x".data, fun _ => [(10, none)]⟩
    (assign_call [] "x".data ⟨4242, Except.ok "x".data, fun _ => [(10, none)]⟩ 0)
    (by decide)

lemma splitOnColon_ne_nil (l : List Char) : splitOnColon l ≠ [] := by
  cases l with
  | nil => simp [splitOnColon]
  | cons c rest =>
    simp only [splitOnColon]
    split_ifs
    · simp
    · cases splitOnColon rest <;> simp

lemma splitOnColon_length (l : List Char) :
    (splitOnColon l).length = l.count ':' + 1 := by
  induction l with
  | nil => simp [splitOnColon]
  | cons c rest ih =>
    by_cases hc : c = ':'
    · subst hc
      simp [splitOnColon, List.count_cons, ih]
    · have hb : (c == ':') = false := by simp [hc]
      cases hS : splitOnColon rest with
      | nil => exact absurd hS (splitOnColon_ne_nil rest)
      | cons r rs =>
        rw [hS] at ih
        simp only [List.length_cons] at ih
        simp [splitOnColon, hc, hS, List.count_cons, hb, ih]

lemma lastField_spec (l : List Char) :
    ':' ∉ (splitOnColon l).getLastD [] ∧
    ((splitOnColon l).getLastD [] = l ∨
      ∃ p, l = p ++ ':' :: (splitOnColon l).getLastD []) := by
  induction l with
  | nil => simp [splitOnColon]
  | cons c rest ih =>
    by_cases hc : c = ':'
    · subst hc
      have hsplit : splitOnColon (':' :: rest) = [] :: splitOnColon rest := by
        simp [splitOnColon]
      rw [hsplit, List.getLastD_cons]
      refine ⟨ih.1, Or.inr ?_⟩
      rcases ih.2 with h | ⟨p, hp⟩
      · exact ⟨[], by rw [h]; rfl⟩
      · exact ⟨':' :: p, by rw [List.cons_append, ← hp]⟩
    · cases hS : splitOnColon rest with
      | nil => exact absurd hS (splitOnColon_ne_nil rest)
      | cons r rs =>
        have hsplit : splitOnColon (c :: rest) = (c :: r) :: rs := by
          simp [splitOnColon, hc, hS]
        cases rs with
        | nil =>
          have hcount : rest.count ':' = 0 := by
            have hl := splitOnColon_length rest
            rw [hS] at hl
            simpa using hl.symm
          have hnc : ':' ∉ rest := by
            intro hmem
            have := List.count_pos_iff.mpr hmem
            omega
          have hr : (splitOnColon rest).getLastD [] = r := by rw [hS]; rfl
          rw [hr] at ih
          have hgl : (splitOnColon (c :: rest)).getLastD [] = c :: r := by
            rw [hsplit]; rfl
          rw [hgl]
          rcases ih.2 with h | ⟨p, hp⟩
          · subst h
            refine ⟨?_, Or.inl rfl⟩
            simp only [List.mem_cons, not_or]
            exact ⟨fun hce => hc hce.symm, ih.1⟩
          · exact absurd (hp ▸ (by simp : ':' ∈ p ++ ':' :: r)) hnc
        | cons r2 rs2 =>
          have heq : (splitOnColon (c :: rest)).getLastD [] =
              (splitOnColon rest).getLastD [] := by
            rw [hsplit, hS]
            simp only [List.getLastD_cons]
          rw [heq]
          refine ⟨ih.1, Or.inr ?_⟩
          rcases ih.2 with h | ⟨p, hp⟩
          · have hl := splitOnColon_length rest
            rw [hS] at hl
            simp only [List.length_cons] at hl
            have hpos : 0 < rest.count ':' := by omega
            have hmem : ':' ∈ rest := List.count_pos_iff.mp hpos
            rw [← h] at hmem
            exact absurd hmem ih.1
          · exact ⟨c :: p, by rw [List.cons_append, ← hp]⟩

/-- C8: get_cgroup is absent exactly on a failed read, and on success it
returns the trailing field of the record: a colon-free string that is either
the whole stripped content or the suffix following the last colon. -/
theorem c8_get_cgroup_last_field :
    get_cgroup none = none ∧
    ∀ s : List Char, ∃ r, get_cgroup (some s) = some r ∧ ':' ∉ r ∧
      (pyStrip s = r ∨ ∃ p, pyStrip s = p ++ ':' :: r) := by
  refine ⟨rfl, fun s => ⟨(splitOnColon (pyStrip s)).getLastD [], rfl,
    (lastField_spec (pyStrip s)).1, ?_⟩⟩
  rcases (lastField_spec (pyStrip s)).2 with h | ⟨p, hp⟩
  · exact Or.inl h.symm
  · exact Or.inr ⟨p, hp⟩

lemma char_toNat_lt (c : Char) : c.toNat < 1114112 := by
  rcases c.valid with h | h
  · exact Nat.lt_trans h (by norm_num)
  · exact h.2

lemma char_toNat_inj {c d : Char} (h : c.toNat = d.toNat) : c = d := by
  apply Char.ext
  exact UInt32.ext h

lemma utf8Bytes_ne_nil (n : Nat) : utf8Bytes n ≠ [] := by
  unfold utf8Bytes
  split_ifs <;> simp

lemma utf8Bytes_lt_256 (n : Nat) (hn : n < 1114112) :
    ∀ b ∈ utf8Bytes n, b < 256 := by
  unfold utf8Bytes
  split_ifs with h1 h2 h3 <;> intro b hb <;>
    simp only [List.mem_cons, List.mem_singleton, List.not_mem_nil, or_false] at hb <;>
    rcases hb with rfl | rfl | rfl | rfl <;> omega

lemma utf8Bytes_head_length (m n : Nat) (hm : m < 1114112) (hn : n < 1114112)
    (h : (utf8Bytes m).headD 0 = (utf8Bytes n).headD 0) :
    (utf8Bytes m).length = (utf8Bytes n).length := by
  unfold utf8Bytes at h ⊢
  split_ifs at h ⊢ <;> simp only [List.headD_cons] at h <;> simp <;> omega

lemma utf8Bytes_inj (m n : Nat) (h : utf8Bytes m = utf8Bytes n) : m = n := by
  unfold utf8Bytes at h
  split_ifs at h <;> simp only [List.cons.injEq, and_true] at h <;> omega

lemma hexDigitChar_inj : ∀ a, a < 16 → ∀ b, b < 16 →
    hexDigitChar a = hexDigitChar b → a = b := by decide

lemma allowedChar_hexDigitChar : ∀ a, a < 16 →
    allowedChar (hexDigitChar a) = true := by decide

lemma escape_app_id_allowed (s : List Char) :
    ∀ c ∈ escape_app_id s, allowedChar c = true := by
  intro c hc
  simp only [escape_app_id, List.mem_flatMap] at hc
  obtain ⟨a, _, hca⟩ := hc
  unfold escChar at hca
  split_ifs at hca with ha
  · simp only [List.mem_singleton] at hca
    subst hca
    exact ha
  · simp only [List.mem_flatMap] at hca
    obtain ⟨b, hb, hcb⟩ := hca
    have hb256 : b < 256 := utf8Bytes_lt_256 _ (char_toNat_lt a) b hb
    simp only [hexByteChars, List.mem_cons, List.mem_singleton,
      List.not_mem_nil, or_false] at hcb
    rcases hcb with rfl | rfl | rfl | rfl
    · decide
    · decide
    · exact allowedChar_hexDigitChar _ (by omega)
    · exact allowedChar_hexDigitChar _ (by omega)

lemma hexByteChars_append_inj {b1 b2 : Nat} (h1 : b1 < 256) (h2 : b2 < 256)
    {X Y : List Char} (h : hexByteChars b1 ++ X = hexByteChars b2 ++ Y) :
    b1 = b2 ∧ X = Y := by
  simp only [hexByteChars, List.cons_append, List.nil_append,
    List.cons.injEq, true_and] at h
  obtain ⟨hd1, hd2, hXY⟩ := h
  have e1 := hexDigitChar_inj _ (by omega) _ (by omega) hd1
  have e2 := hexDigitChar_inj _ (by omega) _ (by omega) hd2
  exact ⟨by omega, hXY⟩

lemma hexEnc_append_inj :
    ∀ (bs1 bs2 : List Nat) (X Y : List Char), bs1.length = bs2.length →
    (∀ b ∈ bs1, b < 256) → (∀ b ∈ bs2, b < 256) →
    bs1.flatMap hexByteChars ++ X = bs2.flatMap hexByteChars ++ Y →
    bs1 = bs2 ∧ X = Y := by
  intro bs1
  induction bs1 with
  | nil =>
    intro bs2 X Y hlen _ _ h
    cases bs2 with
    | nil => exact ⟨rfl, by simpa using h⟩
    | cons b t => simp at hlen
  | cons b t ih =>
    intro bs2 X Y hlen hb1 hb2 h
    cases bs2 with
    | nil => simp at hlen
    | cons b2 t2 =>
      simp only [List.flatMap_cons, List.append_assoc] at h
      obtain ⟨hb, hrest⟩ :=
        hexByteChars_append_inj (hb1 b (by simp)) (hb2 b2 (by simp)) h
      obtain ⟨ht, hXY⟩ := ih t2 X Y (by simpa using hlen)
        (fun x hx => hb1 x (by simp [hx])) (fun x hx => hb2 x (by simp [hx])) hrest
      exact ⟨by rw [hb, ht], hXY⟩

lemma escChar_append_inj {c d : Char}
    (hc : allowedChar c = false) (hd : allowedChar d = false)
    {X Y : List Char} (h : escChar c ++ X = escChar d ++ Y) : c = d ∧ X = Y := by
  simp only [escChar, hc, hd, Bool.false_eq_true, if_false] at h
  have hlen : (utf8Bytes c.toNat).length = (utf8Bytes d.toNat).length := by
    cases hu : utf8Bytes c.toNat with
    | nil => exact absurd hu (utf8Bytes_ne_nil _)
    | cons bc tc =>
      cases hv : utf8Bytes d.toNat with
      | nil => exact absurd hv (utf8Bytes_ne_nil _)
      | cons bd td =>
        rw [hu, hv] at h
        simp only [List.flatMap_cons, List.append_assoc] at h
        have hbc : bc < 256 :=
          utf8Bytes_lt_256 _ (char_toNat_lt c) bc (by rw [hu]; simp)
        have hbd : bd < 256 :=
          utf8Bytes_lt_256 _ (char_toNat_lt d) bd (by rw [hv]; simp)
        have hb := (hexByteChars_append_inj hbc hbd h).1
        have := utf8Bytes_head_length c.toNat d.toNat
          (char_toNat_lt c) (char_toNat_lt d)
          (by rw [hu, hv]; simpa using hb)
        rwa [hu, hv] at this
  obtain ⟨hu, hXY⟩ := hexEnc_append_inj (utf8Bytes c.toNat) (utf8Bytes d.toNat)
    X Y hlen (utf8Bytes_lt_256 _ (char_toNat_lt c))
    (utf8Bytes_lt_256 _ (char_toNat_lt d)) h
  exact ⟨char_toNat_inj (utf8Bytes_inj _ _ hu), hXY⟩

/-- C4: every character of an escaped identifier lies in the allowed
unit-name character class, and escaping is injective on identifiers that
agree at every position at which both hold an allowed character (identifiers
differing only by characters outside the class escape to distinct strings). -/
theorem c4_escape_app_id_spec :
    (∀ s : List Char, ∀ c ∈ escape_app_id s, allowedChar c = true) ∧
    (∀ s t : List Char,
      List.Forall₂
        (fun a b => a = b ∨ (allowedChar a = false ∧ allowedChar b = false)) s t →
      escape_app_id s = escape_app_id t → s = t) := by
  refine ⟨escape_app_id_allowed, fun s t hft => ?_⟩
  induction hft with
  | nil => intro _; rfl
  | @cons a b l1 l2 hab _ ih =>
    intro h
    simp only [escape_app_id, List.flatMap_cons] at h
    rcases hab with rfl | ⟨ha, hb⟩
    · have htail := List.append_cancel_left h
      rw [ih htail]
    · obtain ⟨hcd, hXY⟩ := escChar_append_inj ha hb h
      rw [hcd, ih hXY]

/-- Closed instance of C4 on concrete identifiers, including a non-ASCII and
an escaped-hyphen character. -/
theorem c4_witness :
    (∀ c ∈ escape_app_id "a-b.c".data, allowedChar c = true) ∧
    "a-b".data = "a-b".data :=
  ⟨c4_escape_app_id_spec.1 "a-b.c".data,
   c4_escape_app_id_spec.2 "a-b".data "a-b".data
     (List.forall₂_same.mpr fun _ _ => Or.inl rfl) rfl⟩
